import Mathlib

/-
Verification of src/Multi-Agents/travel_planner.py.

The script wires three chat personas into an AgentGroupChat with a
prompt-based selection strategy and a prompt-based termination strategy,
then runs an interactive loop: read a line, exit on "exit"
(case-insensitive), otherwise append the line to a fresh history and run
the bounded inner exchange, printing every generated turn and a final
completion-status line.

The two result parsers, the exit test, the print formats and the kernel
builder are translated directly from the source.  The AgentGroupChat
inner loop itself is third-party framework code not in the repository;
it is modelled from the spec (section 4.1, steps 1-4) as a fuel-bounded
recursion over an oracle supplying the remote completion responses.
-/

namespace TravelPlanner

/-- Author roles of chat messages (semantic_kernel AuthorRole; the script
only ever tags messages USER, and generated turns ASSISTANT).  Rendering
in f-strings follows CPython's str() of an enum member. -/
inductive AuthorRole where
  | user
  | assistant
deriving DecidableEq, Repr

/-- How an AuthorRole renders inside the script's f-strings. -/
def roleStr : AuthorRole → String
  | AuthorRole.user => "AuthorRole.USER"
  | AuthorRole.assistant => "AuthorRole.ASSISTANT"

/-- One turn of conversation: ChatMessageContent(role, name, content).
The user message built at line 142 carries no name. -/
structure ChatMessageContent where
  role : AuthorRole
  name : Option String
  content : String
deriving DecidableEq, Repr

/-- Line 30 of the source. -/
def CONCIERGE_NAME : String := "Concierge"

/-- Python str.lower() on the script's ASCII strings: lower-case every
character.  (Defined over the character list so that it evaluates by
kernel reduction; Lean's String.toLower is the same map.) -/
def strLower (s : String) : String :=
  String.mk (s.data.map Char.toLower)

/-- Whitespace as Python str.strip() treats it (the characters that can
occur here). -/
def isSpaceChar (c : Char) : Bool :=
  c == ' ' || c == '\t' || c == '\n' || c == '\r'

/-- Python str.strip(): drop surrounding whitespace.  The script never
calls this; it only appears in the spec's description of the termination
verdict, and is defined here to state that description. -/
def strTrim (s : String) : String :=
  String.mk (((s.data.dropWhile isSpaceChar).reverse.dropWhile isSpaceChar).reverse)

/-- Line 125: `lambda result: str(result.value[0]).lower() == "yes"`,
applied to the text of the termination response.  Note: the source
lower-cases but does not strip the response. -/
def parseTerminationResult (response : String) : Bool :=
  strLower response == "yes"

/-- Line 132: `lambda result: str(result.value[0]) if result.value else
CONCIERGE_NAME`.  `value` is the (possibly empty) list of response
contents; a falsy value yields the concierge name, otherwise the first
entry is passed through unchanged. -/
def parseSelectionResult (value : List String) : String :=
  match value with
  | [] => CONCIERGE_NAME
  | v :: _ => v

/-- Services a chat-completion connector can be; the source only ever
constructs AzureChatCompletion (line 54). -/
inductive ChatCompletionService where
  | azureChatCompletion (service_id : String)
  | openAIChatCompletion (service_id : String)
deriving DecidableEq, Repr

/-- A kernel as the script uses it: the list of registered services. -/
structure Kernel where
  services : List ChatCompletionService
deriving DecidableEq, Repr

/-- Lines 52-57: builds a kernel and registers an AzureChatCompletion
under the given service id, whatever the configured backend is. -/
def _create_kernel_with_chat_completion (service_id : String) : Kernel :=
  { services := [ChatCompletionService.azureChatCompletion service_id] }

/-- The backends the configuration can select (source comment, line 20:
available services OpenAI, AzureOpenAI, HuggingFace). -/
inductive Service where
  | AzureOpenAI
  | OpenAI
  | HuggingFace
deriving DecidableEq, Repr

/-- Modelled from the spec: the remote completion service, which answers
the selection prompt (a list of response contents, result.value), a
persona's completion call (the reply text for the named speaker), and
the termination prompt (one response text).  The real service is outside
the repository; the loop treats it as opaque text-in/text-out. -/
structure RemoteService where
  selection : List ChatMessageContent → List String
  persona : String → List ChatMessageContent → String
  termination : List ChatMessageContent → String

/-- Observable effects of one session: remote completion calls and lines
printed to standard output. -/
inductive Event where
  | remoteCall (service_id : String)
  | println (line : String)
deriving DecidableEq, Repr

/-- Python `content.name or '*'` (line 146): the placeholder stands in
both for a missing name and for an empty one. -/
def nameOrStar : Option String → String
  | none => "*"
  | some s => if s == "" then "*" else s

/-- Line 146: `# {content.role} - {content.name or '*'}: '{content.content}'`. -/
def formatTurn (m : ChatMessageContent) : String :=
  "# " ++ roleStr m.role ++ " - " ++ nameOrStar m.name ++ ": \x27" ++ m.content ++ "\x27"

/-- Line 143: `# {AuthorRole.USER}: '{user_input}'`. -/
def userLine (user_input : String) : String :=
  "# " ++ roleStr AuthorRole.user ++ ": \x27" ++ user_input ++ "\x27"

/-- How Python renders a bool in an f-string. -/
def pyStr : Bool → String
  | true => "True"
  | false => "False"

/-- Line 148: `# IS COMPLETE: {chat.is_complete}`. -/
def completeLine (is_complete : Bool) : String :=
  "# IS COMPLETE: " ++ pyStr is_complete

/-- Line 127 of the source. -/
def maximum_iterations : Nat := 20

/-- The next speaker: the selection response parsed by the selection
strategy's result parser. -/
def nextSpeaker (svc : RemoteService) (history : List ChatMessageContent) : String :=
  parseSelectionResult (svc.selection history)

/-- Modelled from the spec: the AgentGroupChat inner exchange (spec 4.1,
steps 1-4), fuel-bounded by maximum_iterations.  Each iteration asks the
selection prompt for the next speaker (defaulting to the concierge),
invokes that persona, appends and prints the generated turn, then asks
the termination prompt and stops on an affirmative verdict.  Returns the
turns appended, the events emitted, and the completion flag. -/
def invokeLoop (svc : RemoteService) :
    Nat → List ChatMessageContent → List ChatMessageContent × List Event × Bool
  | 0, _ => ([], [], false)
  | n + 1, history =>
    let speaker := nextSpeaker svc history
    let msg : ChatMessageContent :=
      { role := AuthorRole.assistant, name := some speaker,
        content := svc.persona speaker history }
    let history' := history ++ [msg]
    let evs := [Event.remoteCall "selection", Event.remoteCall speaker,
                Event.println (formatTurn msg), Event.remoteCall "termination"]
    if parseTerminationResult (svc.termination history') then
      ([msg], evs, true)
    else
      let r := invokeLoop svc n history'
      (msg :: r.1, evs ++ r.2.1, r.2.2)

/-- What one pass of the outer `while True` body leaves behind. -/
structure SessionResult where
  history : List ChatMessageContent
  events : List Event
  is_complete : Bool
  exited : Bool
deriving DecidableEq, Repr

/-- Lines 138-148: one pass of the outer loop after the fresh chat is
built.  `exit` (case-insensitive) breaks out before any event; otherwise
the input is appended to the fresh history as a user turn, printed, the
inner exchange runs, and the completion status is printed last. -/
def runSession (svc : RemoteService) (user_input : String) : SessionResult :=
  if strLower user_input == "exit" then
    { history := [], events := [], is_complete := false, exited := true }
  else
    let userMsg : ChatMessageContent :=
      { role := AuthorRole.user, name := none, content := user_input }
    let r := invokeLoop svc maximum_iterations [userMsg]
    { history := userMsg :: r.1
      events := Event.println (userLine user_input) :: r.2.1
        ++ [Event.println (completeLine r.2.2)]
      is_complete := r.2.2
      exited := false }

/-- Line 60: the outer `while True` loop over successive user inputs,
building a brand-new chat (hence an empty history) for every input and
stopping at the exit keyword. -/
def mainLoop (svc : RemoteService) : List String → List SessionResult
  | [] => []
  | s :: rest =>
    if strLower s == "exit" then []
    else runSession svc s :: mainLoop svc rest

/-- Lines 21-25 compute the configured backend; the rest of the script
never reads it, so the sessions produced are a function of the remote
responses and the inputs alone.  `selected` stands for the module-level
`selectedService` being in scope while `main` runs. -/
def programSessions (selected : Service) (svc : RemoteService)
    (inputs : List String) : List SessionResult :=
  mainLoop svc inputs

/-- The printed lines among a list of events. -/
def printedLines (evs : List Event) : List String :=
  evs.filterMap fun e =>
    match e with
    | Event.println s => some s
    | Event.remoteCall _ => none

/-- Recognises a printed completion-status line (line 148 prints exactly
one of these two strings). -/
def isCompletionPrint (e : Event) : Bool :=
  e == Event.println (completeLine true) || e == Event.println (completeLine false)

/-- A remote service whose termination response is affirmative at once:
the inner exchange stops after a single turn. -/
def svcYes : RemoteService :=
  { selection := fun _ => ["Concierge"]
    persona := fun _ _ => "ok"
    termination := fun _ => "yes" }

/-- A remote service whose responses are all empty. -/
def svcEmpty : RemoteService :=
  { selection := fun _ => []
    persona := fun _ _ => ""
    termination := fun _ => "" }

lemma invokeLoop_turns_length_le (svc : RemoteService) :
    ∀ (n : Nat) (history : List ChatMessageContent),
      (invokeLoop svc n history).1.length ≤ n := by
  intro n
  induction n with
  | zero => intro history; simp [invokeLoop]
  | succ n ih =>
    intro history
    simp only [invokeLoop]
    split
    · simp
    · simpa using Nat.succ_le_succ (ih _)

lemma invokeLoop_printedLines (svc : RemoteService) :
    ∀ (n : Nat) (history : List ChatMessageContent),
      printedLines (invokeLoop svc n history).2.1 =
        ((invokeLoop svc n history).1).map formatTurn := by
  intro n
  induction n with
  | zero => intro history; simp [invokeLoop, printedLines]
  | succ n ih =>
    intro history
    simp only [invokeLoop]
    split
    · simp [printedLines]
    · simp [printedLines] at ih ⊢
      exact ih _

lemma invokeLoop_roles (svc : RemoteService) :
    ∀ (n : Nat) (history : List ChatMessageContent)
      (m : ChatMessageContent), m ∈ (invokeLoop svc n history).1 →
      m.role = AuthorRole.assistant := by
  intro n
  induction n with
  | zero => intro history m hm; simp [invokeLoop] at hm
  | succ n ih =>
    intro history m hm
    simp only [invokeLoop] at hm
    split at hm
    · simp at hm
      subst hm
      rfl
    · simp at hm
      rcases hm with hm | hm
      · subst hm; rfl
      · exact ih _ m hm

lemma userLine_length (s : String) : (userLine s).length = 21 + s.length := by
  have h1 : ("# AuthorRole.USER: \x27" : String).length = 20 := by decide
  have h2 : ("\x27" : String).length = 1 := by decide
  simp [userLine, roleStr, String.length_append, h1, h2]
  omega

lemma formatTurn_assistant_length (m : ChatMessageContent)
    (hrole : m.role = AuthorRole.assistant) :
    (formatTurn m).length =
      29 + (nameOrStar m.name).length + m.content.length := by
  have h1 : ("# AuthorRole.ASSISTANT - " : String).length = 25 := by decide
  have h2 : (": \x27" : String).length = 3 := by decide
  have h3 : ("\x27" : String).length = 1 := by decide
  simp [formatTurn, hrole, roleStr, String.length_append, h1, h2, h3]
  omega

lemma completeLine_length (b : Bool) :
    (completeLine b).length = if b then 19 else 20 := by
  cases b <;> decide

lemma userLine_not_completion (s : String) :
    isCompletionPrint (Event.println (userLine s)) = false := by
  have hl := userLine_length s
  have ht : (completeLine true).length = 19 := by decide
  have hf : (completeLine false).length = 20 := by decide
  simp only [isCompletionPrint, Bool.or_eq_false_iff, beq_eq_false_iff_ne,
    ne_eq, Event.println.injEq]
  constructor
  · intro h
    rw [h, ht] at hl
    omega
  · intro h
    rw [h, hf] at hl
    omega

lemma formatTurn_not_completion (m : ChatMessageContent)
    (hrole : m.role = AuthorRole.assistant) :
    isCompletionPrint (Event.println (formatTurn m)) = false := by
  have hl := formatTurn_assistant_length m hrole
  have ht : (completeLine true).length = 19 := by decide
  have hf : (completeLine false).length = 20 := by decide
  simp only [isCompletionPrint, Bool.or_eq_false_iff, beq_eq_false_iff_ne,
    ne_eq, Event.println.injEq]
  constructor
  · intro h
    rw [h, ht] at hl
    omega
  · intro h
    rw [h, hf] at hl
    omega

lemma invokeLoop_no_completion_print (svc : RemoteService) :
    ∀ (n : Nat) (history : List ChatMessageContent) (e : Event),
      e ∈ (invokeLoop svc n history).2.1 → isCompletionPrint e = false := by
  intro n
  induction n with
  | zero => intro history e he; simp [invokeLoop] at he
  | succ n ih =>
    intro history e he
    simp only [invokeLoop] at he
    split at he
    · simp at he
      rcases he with he | he | he | he
      · subst he; rfl
      · subst he; rfl
      · subst he; exact formatTurn_not_completion _ rfl
      · subst he; rfl
    · simp at he
      rcases he with he | he | he | he | he
      · subst he; rfl
      · subst he; rfl
      · subst he; exact formatTurn_not_completion _ rfl
      · subst he; rfl
      · exact ih _ e he

lemma completeLine_is_completion (b : Bool) :
    isCompletionPrint (Event.println (completeLine b)) = true := by
  cases b
  · decide
  · decide

lemma runSession_not_exit (svc : RemoteService) (s : String)
    (hne : strLower s ≠ "exit") :
    runSession svc s =
      { history := ⟨AuthorRole.user, none, s⟩ ::
          (invokeLoop svc maximum_iterations [⟨AuthorRole.user, none, s⟩]).1
        events := Event.println (userLine s) ::
          (invokeLoop svc maximum_iterations [⟨AuthorRole.user, none, s⟩]).2.1
          ++ [Event.println (completeLine
               (invokeLoop svc maximum_iterations [⟨AuthorRole.user, none, s⟩]).2.2)]
        is_complete := (invokeLoop svc maximum_iterations [⟨AuthorRole.user, none, s⟩]).2.2
        exited := false } := by
  have hb : (strLower s == "exit") = false := beq_eq_false_iff_ne.mpr hne
  simp [runSession, hb]

/-- C1 counterexample: the claim says the verdict is "stop" whenever the
response, trimmed and lower-cased, equals "yes"; but at the response
" yes" the parser of line 125 returns false (it lower-cases without
trimming), while the trimmed, lower-cased response is exactly "yes". -/
theorem termination_trim_claim_false :
    parseTerminationResult " yes" = false ∧ strLower (strTrim " yes") = "yes" := by
  constructor
  · decide
  · decide

/-- C1 (amended): the termination verdict is "stop" if and only if the
response string, lower-cased but not trimmed, equals exactly "yes"; any
other response, including "yes" with surrounding whitespace, means the
inner exchange continues. -/
theorem termination_stop_iff_lower_yes (response : String) :
    parseTerminationResult response = true ↔ strLower response = "yes" := by
  simp [parseTerminationResult]

/-- C2: whatever the remote responses and the starting history, the inner
exchange run with the configured maximum_iterations appends at most 20
turns and prints at most 20 turn lines before it is forcibly stopped. -/
theorem inner_exchange_at_most_20_turns (svc : RemoteService)
    (history : List ChatMessageContent) :
    (invokeLoop svc maximum_iterations history).1.length ≤ 20 ∧
    (printedLines (invokeLoop svc maximum_iterations history).2.1).length ≤ 20 := by
  constructor
  · exact invokeLoop_turns_length_le svc maximum_iterations history
  · rw [invokeLoop_printedLines, List.length_map]
    exact invokeLoop_turns_length_le svc maximum_iterations history

/-- C3: when the selection response carries no value (result.value is
empty), the selection strategy's parser yields the Concierge persona as
the next speaker. -/
theorem empty_selection_defaults_to_concierge (svc : RemoteService)
    (history : List ChatMessageContent) (hsel : svc.selection history = []) :
    nextSpeaker svc history = CONCIERGE_NAME := by
  simp [nextSpeaker, hsel, parseSelectionResult]

/-- C3 witness: a remote service answering the selection prompt with no
value makes the concierge the next speaker. -/
theorem empty_selection_defaults_to_concierge_witness :
    nextSpeaker svcEmpty [] = CONCIERGE_NAME :=
  empty_selection_defaults_to_concierge svcEmpty [] rfl

/-- C4: the session exits exactly when the input lower-cases to "exit";
an exiting session emits no event (no remote call, no output) and keeps
an empty history, the outer loop ends there, and any other input leaves
the loop running with the session's record appended. -/
theorem exit_ends_session_cleanly (svc : RemoteService) (s : String)
    (rest : List String) :
    ((runSession svc s).exited = (strLower s == "exit")) ∧
    (strLower s = "exit" →
      (runSession svc s).events = [] ∧ (runSession svc s).history = [] ∧
      mainLoop svc (s :: rest) = []) ∧
    (strLower s ≠ "exit" →
      (runSession svc s).exited = false ∧
      mainLoop svc (s :: rest) = runSession svc s :: mainLoop svc rest) := by
  by_cases h : strLower s = "exit"
  · refine ⟨?_, fun _ => ?_, fun hne => absurd h hne⟩
    · simp [runSession, h]
    · simp [runSession, mainLoop, h]
  · have hb : (strLower s == "exit") = false := beq_eq_false_iff_ne.mpr h
    refine ⟨?_, fun he => absurd he h, fun _ => ?_⟩
    · simp [runSession, hb]
    · simp [runSession, mainLoop, hb]

/-- C5: for an input that is not the exit keyword, the first entry of the
session history is that input tagged with the user role (and no agent
name), and everything after it is a generated assistant turn: the user
turn is appended before the exchange begins. -/
theorem user_input_appended_before_exchange (svc : RemoteService) (s : String)
    (hne : strLower s ≠ "exit") :
    (runSession svc s).history.head? =
      some { role := AuthorRole.user, name := none, content := s } ∧
    ∀ m ∈ (runSession svc s).history.tail, m.role = AuthorRole.assistant := by
  rw [runSession_not_exit svc s hne]
  refine ⟨rfl, fun m hm => ?_⟩
  exact invokeLoop_roles svc maximum_iterations _ m hm

/-- C5 witness: at the input "hello" the session history starts with the
user turn and continues with assistant turns only. -/
theorem user_input_appended_before_exchange_witness :
    (runSession svcYes "hello").history.head? =
      some { role := AuthorRole.user, name := none, content := "hello" } ∧
    ∀ m ∈ (runSession svcYes "hello").history.tail,
      m.role = AuthorRole.assistant :=
  user_input_appended_before_exchange svcYes "hello" (by decide)

/-- C6: the lines the inner exchange prints are exactly its generated
turns, each rendered as `# <role> - <name or placeholder>: '<content>'`,
the placeholder * standing in when the turn carries no (or an empty)
agent name. -/
theorem turns_printed_in_format (svc : RemoteService) (n : Nat)
    (history : List ChatMessageContent) :
    printedLines (invokeLoop svc n history).2.1 =
      ((invokeLoop svc n history).1).map (fun m =>
        "# " ++ roleStr m.role ++ " - " ++
          (match m.name with
           | none => "*"
           | some a => if a == "" then "*" else a) ++
          ": \x27" ++ m.content ++ "\x27") := by
  rw [invokeLoop_printedLines]
  rfl

lemma runSession_user_count (svc : RemoteService) (s : String)
    (hne : strLower s ≠ "exit") :
    (runSession svc s).history.countP
      (fun m => m.role == AuthorRole.user) = 1 := by
  rw [runSession_not_exit svc s hne]
  have h0 : (invokeLoop svc maximum_iterations
      [⟨AuthorRole.user, none, s⟩]).1.countP
      (fun m => m.role == AuthorRole.user) = 0 := by
    rw [List.countP_eq_zero]
    intro m hm
    have hrole := invokeLoop_roles svc maximum_iterations _ m hm
    simp [hrole]
  simp [List.countP_cons, h0]

/-- C7: on any non-exit input, the session prints the completion-status
line exactly once, as its last event, and then the outer loop goes back
to waiting for the next input (the session does not exit). -/
theorem completion_status_printed_once (svc : RemoteService) (s : String)
    (hne : strLower s ≠ "exit") :
    (∃ pre, (runSession svc s).events =
        pre ++ [Event.println (completeLine (runSession svc s).is_complete)]) ∧
    (runSession svc s).events.countP isCompletionPrint = 1 ∧
    (runSession svc s).exited = false := by
  rw [runSession_not_exit svc s hne]
  refine ⟨⟨Event.println (userLine s) ::
      (invokeLoop svc maximum_iterations [⟨AuthorRole.user, none, s⟩]).2.1, rfl⟩,
    ?_, rfl⟩
  have h1 := userLine_not_completion s
  have h2 : (invokeLoop svc maximum_iterations
      [⟨AuthorRole.user, none, s⟩]).2.1.countP isCompletionPrint = 0 := by
    rw [List.countP_eq_zero]
    intro e he
    simp [invokeLoop_no_completion_print svc maximum_iterations _ e he]
  have h3 := completeLine_is_completion
    (invokeLoop svc maximum_iterations [⟨AuthorRole.user, none, s⟩]).2.2
  simp [List.countP_cons, List.countP_append, h1, h2, h3]

/-- C7 witness: at the input "hello" the completion-status line is
printed exactly once, last, and the session does not exit. -/
theorem completion_status_printed_once_witness :
    (∃ pre, (runSession svcYes "hello").events =
        pre ++ [Event.println (completeLine (runSession svcYes "hello").is_complete)]) ∧
    (runSession svcYes "hello").events.countP isCompletionPrint = 1 ∧
    (runSession svcYes "hello").exited = false :=
  completion_status_printed_once svcYes "hello" (by decide)

/-- C8: every session record the outer loop produces is exactly the
session of one of the inputs, computed from a brand-new chat with no
prior history, and its history holds exactly one user-role turn: nothing
accumulated while handling an earlier input is visible in it. -/
theorem sessions_start_from_empty_history (svc : RemoteService)
    (inputs : List String) (r : SessionResult) (hr : r ∈ mainLoop svc inputs) :
    (∃ s, s ∈ inputs ∧ r = runSession svc s) ∧
    r.history.countP (fun m => m.role == AuthorRole.user) = 1 := by
  induction inputs with
  | nil => simp [mainLoop] at hr
  | cons s rest ih =>
    simp only [mainLoop] at hr
    split at hr
    · simp at hr
    · rename_i hcond
      have hne : strLower s ≠ "exit" := by simpa using hcond
      rcases List.mem_cons.mp hr with hr | hr
      · subst hr
        exact ⟨⟨s, List.mem_cons_self s rest, rfl⟩,
          runSession_user_count svc s hne⟩
      · obtain ⟨⟨t, ht, hrt⟩, hc⟩ := ih hr
        exact ⟨⟨t, List.mem_cons_of_mem s ht, hrt⟩, hc⟩

/-- C8 witness: the single session of the input list ["hello"] is the
session of "hello" itself and its history has exactly one user turn. -/
theorem sessions_start_from_empty_history_witness :
    (∃ s, s ∈ ["hello"] ∧ runSession svcYes "hello" = runSession svcYes s) ∧
    (runSession svcYes "hello").history.countP
      (fun m => m.role == AuthorRole.user) = 1 :=
  sessions_start_from_empty_history svcYes ["hello"]
    (runSession svcYes "hello") (by decide)

/-- C9: _create_kernel_with_chat_completion registers an
AzureChatCompletion service for every service id, and the sessions the
program produces are the same whatever backend the configuration
selected: selectedService is computed but never used. -/
theorem kernel_always_azure_backend_unused :
    (∀ sid : String, (_create_kernel_with_chat_completion sid).services =
        [ChatCompletionService.azureChatCompletion sid]) ∧
    (∀ (sel1 sel2 : Service) (svc : RemoteService) (inputs : List String),
        programSessions sel1 svc inputs = programSessions sel2 svc inputs) :=
  ⟨fun _ => rfl, fun _ _ _ _ => rfl⟩

/-- C10: a selection response with a value is passed through as the next
speaker exactly as it came: no trimming, no case normalisation, no check
against the configured persona names. -/
theorem nonempty_selection_passed_through (v : String) (vs : List String) :
    parseSelectionResult (v :: vs) = v :=
  rfl

end TravelPlanner
